import Mathlib

/-!
Verification of the bubble spatial-layout and collision engine of the
Contact_app repository.

The definitions below are a shallow embedding of the TypeScript source:
* `src/app/(tabs)/Contacts.tsx` — bubble state, `getBubbleSize`, `canMoveTo`,
  `onChange`, `addContactToBubbles`, `handleAddContactPress`, `removeBubble`,
  `updateBubbleDurations`, `findCallDurationForContact`,
  `normalizePhoneNumber`;
* `src/app/(tabs)/calllog.tsx` — `normalizePhoneNumber`, `findContactName`,
  and the call-log grouping loop of `loadCallLogs`.

JavaScript numbers are modelled as exact rationals (`ℚ`); JavaScript strings
as `String`; `undefined`-able values as `Option`; the `Map`/`Set` objects as
insertion-ordered lists.  The canvas dimensions (`width`, `height` from
`Dimensions.get('window')`) are passed as explicit parameters.
-/

namespace ContactApp

/-- The `BubbleState` record of `Contacts.tsx` (`id`, `size`, `x`, `y`,
`contactId`, `contactName`, `callDuration`, `phoneNumber?`). -/
structure BubbleState where
  id : String
  size : ℚ
  x : ℚ
  y : ℚ
  contactId : String
  contactName : String
  callDuration : ℚ
  phoneNumber : Option String
  deriving DecidableEq

/-! ## SizeModel: `getBubbleSize` -/

/-- `getBubbleSize` from `Contacts.tsx` (lines 268–288).  The source reads the
screen `width` from the enclosing component; here it is the first argument. -/
def getBubbleSize (width : ℚ) (duration : ℚ) : ℚ :=
  let MIN_SIZE := width * 0.15
  let MAX_SIZE := width * 0.50
  if duration = 0 then MIN_SIZE
  else
    let durationMinutes := duration / 60
    let sizeIncreasePercent := durationMinutes / 10 * 0.005
    let calculatedSize := MIN_SIZE + width * sizeIncreasePercent
    min calculatedSize MAX_SIZE

/-- C5: `getBubbleSize` returns `MIN_SIZE = 0.15 * w` for duration `0` and
otherwise `min (MIN_SIZE + w * ((d/60)/10) * 0.005) (0.50 * w)`; in particular
`size(0, 400) = 60` and `size(600, 400)` is the formula value capped at `200`,
namely `62`. -/
theorem getBubbleSize_formula :
    (∀ w d : ℚ, d = 0 → getBubbleSize w d = 0.15 * w) ∧
    (∀ w d : ℚ, d ≠ 0 →
      getBubbleSize w d = min (0.15 * w + w * (d / 60 / 10) * 0.005) (0.50 * w)) ∧
    getBubbleSize 400 0 = 60 ∧
    getBubbleSize 400 600 = min (0.15 * 400 + 400 * (600 / 60 / 10) * 0.005) 200 ∧
    getBubbleSize 400 600 = 62 := by
  have h0 : ∀ w d : ℚ, d = 0 → getBubbleSize w d = 0.15 * w := by
    intro w d hd
    simp only [getBubbleSize, if_pos hd]
    ring
  have h1 : ∀ w d : ℚ, d ≠ 0 →
      getBubbleSize w d = min (0.15 * w + w * (d / 60 / 10) * 0.005) (0.50 * w) := by
    intro w d hd
    simp only [getBubbleSize, if_neg hd]
    congr 1 <;> ring
  refine ⟨h0, h1, ?_, ?_, ?_⟩
  · rw [h0 400 0 rfl]; norm_num
  · rw [h1 400 600 (by norm_num)]; norm_num
  · rw [h1 400 600 (by norm_num)]; norm_num

/-- Witness for C5 at concrete inputs. -/
theorem getBubbleSize_formula_witness :
    getBubbleSize 400 0 = 0.15 * 400 ∧
    getBubbleSize 400 600 = min (0.15 * 400 + 400 * (600 / 60 / 10) * 0.005) (0.50 * 400) :=
  ⟨getBubbleSize_formula.1 400 0 rfl,
   getBubbleSize_formula.2.1 400 600 (by norm_num)⟩

/-- C6: for a nonnegative canvas width, `getBubbleSize` is monotone
non-decreasing in the (nonnegative) duration and its value lies in
`[0.15 * w, 0.50 * w]`. -/
theorem getBubbleSize_monotone_bounded :
    (∀ w d1 d2 : ℚ, 0 ≤ w → 0 ≤ d1 → d1 ≤ d2 →
      getBubbleSize w d1 ≤ getBubbleSize w d2) ∧
    (∀ w d : ℚ, 0 ≤ w → 0 ≤ d →
      0.15 * w ≤ getBubbleSize w d ∧ getBubbleSize w d ≤ 0.50 * w) := by
  constructor
  · intro w d1 d2 hw hd1 h12
    unfold getBubbleSize
    by_cases h1 : d1 = 0
    · by_cases h2 : d2 = 0
      · simp [h1, h2]
      · have hd2 : 0 ≤ d2 := hd1.trans h12
        simp only [if_pos h1, if_neg h2]
        refine le_min ?_ ?_
        · have : 0 ≤ w * (d2 / 60 / 10 * 0.005) :=
            mul_nonneg hw
              (mul_nonneg (div_nonneg (div_nonneg hd2 (by norm_num)) (by norm_num))
                (by norm_num))
          linarith
        · linarith
    · have h2 : d2 ≠ 0 := by
        intro h
        exact h1 (le_antisymm (h ▸ h12) hd1)
      simp only [if_neg h1, if_neg h2]
      refine min_le_min ?_ le_rfl
      gcongr
  · intro w d hw hd
    unfold getBubbleSize
    by_cases h : d = 0
    · simp only [if_pos h]
      constructor <;> nlinarith
    · simp only [if_neg h]
      have hpos : 0 ≤ w * (d / 60 / 10 * 0.005) :=
        mul_nonneg hw
          (mul_nonneg (div_nonneg (div_nonneg hd (by norm_num)) (by norm_num))
            (by norm_num))
      constructor
      · refine le_min ?_ ?_ <;> nlinarith
      · exact (min_le_right _ _).trans (le_of_eq (by ring))

/-- Witness for C6 at concrete inputs. -/
theorem getBubbleSize_monotone_bounded_witness :
    getBubbleSize 400 0 ≤ getBubbleSize 400 600 ∧
    0.15 * 400 ≤ getBubbleSize 400 600 ∧ getBubbleSize 400 600 ≤ 0.50 * 400 :=
  ⟨getBubbleSize_monotone_bounded.1 400 0 600 (by norm_num) le_rfl (by norm_num),
   (getBubbleSize_monotone_bounded.2 400 600 (by norm_num) (by norm_num)).1,
   (getBubbleSize_monotone_bounded.2 400 600 (by norm_num) (by norm_num)).2⟩

/-! ## CollisionValidator: `canMoveTo`, and the drag commit `onChange` -/

/-- Squared distance between the center of a circle of radius `r1` whose
top-left corner sits at candidate `(x, y)` and the center of bubble `b`,
exactly as computed inside the collision loop of `canMoveTo`. -/
def pairDistSq (x y r1 : ℚ) (b : BubbleState) : ℚ :=
  let r2 := b.size / 2
  let dx := x + r1 - (b.x + r2)
  let dy := y + r1 - (b.y + r2)
  dx * dx + dy * dy

/-- One iteration of the collision loop of `canMoveTo` (lines 448–462): the
entry with the dragged bubble's own id is skipped; any other bubble passes
exactly when the squared center distance is not strictly below
`(r1 + r2)^2`. -/
def bubbleOk (id : String) (r1 x y : ℚ) (b : BubbleState) : Bool :=
  if b.id == id then true
  else !(decide (pairDistSq x y r1 b < (r1 + b.size / 2) * (r1 + b.size / 2)))

/-- `canMoveTo` from `Contacts.tsx` (lines 437–464).  `index` models
`bubbleMapRef.current` (the id-keyed map mirroring the bubble list; lookup by
id is `find?`, iteration over entries is the list itself). -/
def canMoveTo (w h : ℚ) (index : List BubbleState) (id : String) (x y : ℚ) : Bool :=
  match index.find? (fun b => b.id == id) with
  | none => true
  | some curr =>
    if x < 0 ∨ y < 0 then false
    else if x + curr.size > w then false
    else if y + curr.size > h then false
    else index.all (bubbleOk id (curr.size / 2) x y)

/-- `onChange` from `Contacts.tsx` (lines 466–472): commit candidate `(x, y)`
as the position of the bubble with the given id. -/
def onChange (bubbles : List BubbleState) (id : String) (x y : ℚ) : List BubbleState :=
  bubbles.map (fun b => if b.id == id then { b with x := x, y := y } else b)

/-- A bubble lies fully inside the `w × h` canvas (spec §3). -/
def InBounds (w h : ℚ) (b : BubbleState) : Prop :=
  0 ≤ b.x ∧ 0 ≤ b.y ∧ b.x + b.size ≤ w ∧ b.y + b.size ≤ h

/-- No-overlap constraint between two bubbles, in the squared form used by
both the spec (§4.4: reject iff `distance² < (r1 + r2)²`) and the source:
squared center distance at least the squared sum of the radii.  Over
nonnegative quantities this is equivalent to
`distance(centers) ≥ r1 + r2`. -/
def Separated (a b : BubbleState) : Prop :=
  (a.size / 2 + b.size / 2) * (a.size / 2 + b.size / 2) ≤ pairDistSq a.x a.y (a.size / 2) b

theorem separated_symm {a b : BubbleState} (h : Separated a b) : Separated b a := by
  unfold Separated pairDistSq at h ⊢
  nlinarith [h]

theorem find?_eq_of_mem_of_nodup (bubbles : List BubbleState) (a : BubbleState) (id : String)
    (hids : (bubbles.map BubbleState.id).Nodup) (ha : a ∈ bubbles) (haid : a.id = id) :
    bubbles.find? (fun b => b.id == id) = some a := by
  cases hfind : bubbles.find? (fun b => b.id == id) with
  | none =>
    have := List.find?_eq_none.mp hfind a ha
    simp [haid] at this
  | some curr =>
    have hp : (curr.id == id) = true := by
      have := List.find?_some hfind
      simpa using this
    have hcm : curr ∈ bubbles := List.mem_of_find?_eq_some hfind
    have hca : curr = a := by
      refine List.inj_on_of_nodup_map hids hcm ha ?_
      rw [beq_iff_eq] at hp
      rw [hp, haid]
    rw [hca]

theorem canMoveTo_all_of_true (w h : ℚ) (bubbles : List BubbleState) (id : String)
    (x y : ℚ) (curr : BubbleState)
    (hfind : bubbles.find? (fun b => b.id == id) = some curr)
    (hmove : canMoveTo w h bubbles id x y = true) :
    ∀ b ∈ bubbles, bubbleOk id (curr.size / 2) x y b = true := by
  simp only [canMoveTo, hfind] at hmove
  split_ifs at hmove
  exact List.all_eq_true.mp hmove

theorem moved_separated (w h : ℚ) (bubbles : List BubbleState) (id : String) (x y : ℚ)
    (hids : (bubbles.map BubbleState.id).Nodup)
    (hmove : canMoveTo w h bubbles id x y = true)
    (m : BubbleState) (hm : m ∈ bubbles) (hmid : m.id = id)
    (b : BubbleState) (hb : b ∈ bubbles) (hbid : b.id ≠ id) :
    Separated { m with x := x, y := y } b := by
  have hfind := find?_eq_of_mem_of_nodup bubbles m id hids hm hmid
  have hok := canMoveTo_all_of_true w h bubbles id x y m hfind hmove b hb
  unfold bubbleOk at hok
  rw [if_neg (by simpa using hbid)] at hok
  have hlt : ¬ pairDistSq x y (m.size / 2) b <
      (m.size / 2 + b.size / 2) * (m.size / 2 + b.size / 2) := by
    simpa using hok
  unfold Separated
  simpa [not_lt] using hlt

/-- C1: if every pair of distinct bubbles is separated and every bubble is in
bounds, and a drag of one bubble to candidate `(x, y)` is accepted by
`canMoveTo` and committed via `onChange`, then every pair of distinct bubbles
in the resulting layout is still separated. -/
theorem drag_commit_preserves_separation (w h : ℚ) (bubbles : List BubbleState)
    (id : String) (x y : ℚ)
    (hids : (bubbles.map BubbleState.id).Nodup)
    (hsep : bubbles.Pairwise Separated)
    (hbounds : ∀ b ∈ bubbles, InBounds w h b)
    (hmove : canMoveTo w h bubbles id x y = true) :
    (onChange bubbles id x y).Pairwise Separated := by
  unfold onChange
  rw [List.pairwise_map]
  have hne : bubbles.Pairwise (fun a b => a.id ≠ b.id) := List.pairwise_map.mp hids
  refine (hsep.and hne).imp_of_mem ?_
  intro a b ha hb hab
  obtain ⟨hS, hne'⟩ := hab
  by_cases hA : a.id = id <;> by_cases hB : b.id = id
  · exact absurd (hA.trans hB.symm) hne'
  · have := moved_separated w h bubbles id x y hids hmove a ha hA b hb hB
    simpa [hA, hB] using this
  · have := separated_symm (moved_separated w h bubbles id x y hids hmove b hb hB a ha hA)
    simpa [hA, hB] using this
  · simpa [hA, hB] using hS

/-- A sample bubble used by concrete witnesses. -/
def demoBubble (id contactId : String) (x y size : ℚ) : BubbleState :=
  { id := id, size := size, x := x, y := y, contactId := contactId,
    contactName := id, callDuration := 0, phoneNumber := none }

/-- Two diameter-100 bubbles: `"a"` at `(0, 0)` and `"b"` at `(200, 0)`. -/
def demoPair : List BubbleState :=
  [demoBubble "a" "ca" 0 0 100, demoBubble "b" "cb" 200 0 100]

/-- Witness for C1: moving `"a"` to `(80, 0)` on a `1000 × 1000` canvas is
accepted and the committed layout is still pairwise separated. -/
theorem drag_commit_preserves_separation_witness :
    (onChange demoPair "a" 80 0).Pairwise Separated := by
  refine drag_commit_preserves_separation 1000 1000 demoPair "a" 80 0 ?_ ?_ ?_ ?_
  · decide
  · refine List.Pairwise.cons ?_ (List.Pairwise.cons ?_ List.Pairwise.nil)
    · intro b hb
      simp only [List.mem_singleton] at hb
      subst hb
      norm_num [Separated, pairDistSq, demoBubble]
    · intro b hb
      exact absurd hb (List.not_mem_nil b)
  · intro b hb
    simp only [demoPair, List.mem_cons, List.mem_singleton] at hb
    rcases hb with rfl | rfl | h
    · norm_num [InBounds, demoBubble]
    · norm_num [InBounds, demoBubble]
    · cases h
  · norm_num [canMoveTo, demoPair, demoBubble, List.find?, bubbleOk, pairDistSq]

/-- C2: an accepted `canMoveTo` for a registered bubble implies the candidate
keeps the bubble inside `[0, w - size] × [0, h - size]`. -/
theorem canMoveTo_accept_in_bounds (w h : ℚ) (bubbles : List BubbleState) (id : String)
    (x y : ℚ) (curr : BubbleState)
    (hfind : bubbles.find? (fun b => b.id == id) = some curr)
    (hacc : canMoveTo w h bubbles id x y = true) :
    0 ≤ x ∧ x ≤ w - curr.size ∧ 0 ≤ y ∧ y ≤ h - curr.size := by
  simp only [canMoveTo, hfind] at hacc
  split_ifs at hacc with h1 h2 h3
  push_neg at h1 h2 h3
  exact ⟨h1.1, by linarith, h1.2, by linarith⟩

/-- Witness for C2 at a concrete accepted move. -/
theorem canMoveTo_accept_in_bounds_witness :
    0 ≤ (80 : ℚ) ∧ (80 : ℚ) ≤ 1000 - (demoBubble "a" "ca" 0 0 100).size ∧
    0 ≤ (0 : ℚ) ∧ (0 : ℚ) ≤ 1000 - (demoBubble "a" "ca" 0 0 100).size :=
  canMoveTo_accept_in_bounds 1000 1000 demoPair "a" 80 0 (demoBubble "a" "ca" 0 0 100)
    (by simp [demoPair, List.find?, demoBubble])
    (by norm_num [canMoveTo, demoPair, demoBubble, List.find?, bubbleOk, pairDistSq])

theorem bubbleOk_eq_false_iff (id : String) (r1 x y : ℚ) (b : BubbleState) :
    bubbleOk id r1 x y b = false ↔
      b.id ≠ id ∧ pairDistSq x y r1 b < (r1 + b.size / 2) * (r1 + b.size / 2) := by
  unfold bubbleOk
  by_cases hid : b.id = id
  · simp [hid]
  · simp [hid]

/-- C3: for a registered bubble, `canMoveTo` returns `false` exactly when the
candidate is out of bounds or some other bubble is at squared center distance
strictly below the squared sum of radii (so exact tangency is accepted); and
in the two-bubble diameter-100 scenario, the candidate placing the centers
80px apart is rejected while the one placing them 120px apart is accepted. -/
theorem canMoveTo_reject_characterization :
    (∀ (w h : ℚ) (bubbles : List BubbleState) (id : String) (x y : ℚ)
        (curr : BubbleState),
      bubbles.find? (fun b => b.id == id) = some curr →
      (canMoveTo w h bubbles id x y = false ↔
        (x < 0 ∨ y < 0 ∨ x + curr.size > w ∨ y + curr.size > h) ∨
        ∃ b ∈ bubbles, b.id ≠ id ∧
          pairDistSq x y (curr.size / 2) b <
            (curr.size / 2 + b.size / 2) * (curr.size / 2 + b.size / 2))) ∧
    canMoveTo 1000 1000 demoPair "a" 120 0 = false ∧
    canMoveTo 1000 1000 demoPair "a" 80 0 = true := by
  refine ⟨?_, ?_, ?_⟩
  · intro w h bubbles id x y curr hfind
    simp only [canMoveTo, hfind]
    split_ifs with h1 h2 h3
    · simp only [true_iff]
      exact Or.inl (by tauto)
    · simp only [true_iff]
      exact Or.inl (by tauto)
    · simp only [true_iff]
      exact Or.inl (by tauto)
    · have hiff : bubbles.all (bubbleOk id (curr.size / 2) x y) = false ↔
          ∃ b ∈ bubbles, bubbleOk id (curr.size / 2) x y b = false := by
        simp [List.all_eq_true]
      rw [hiff]
      push_neg at h1 h2 h3
      constructor
      · rintro ⟨b, hbmem, hbf⟩
        exact Or.inr ⟨b, hbmem, (bubbleOk_eq_false_iff id (curr.size / 2) x y b).mp hbf⟩
      · rintro (hbad | ⟨b, hbmem, hbprop⟩)
        · rcases hbad with hx | hy | hw' | hh'
          · exact absurd hx (by simpa using h1.1)
          · exact absurd hy (by simpa using h1.2)
          · exact absurd hw' (by simpa using h2)
          · exact absurd hh' (by simpa using h3)
        · exact ⟨b, hbmem, (bubbleOk_eq_false_iff id (curr.size / 2) x y b).mpr hbprop⟩
  · have hba : ("b" : String) ≠ "a" := by decide
    norm_num [canMoveTo, demoPair, demoBubble, List.find?, bubbleOk, pairDistSq, hba]
  · have hba : ("b" : String) ≠ "a" := by decide
    norm_num [canMoveTo, demoPair, demoBubble, List.find?, bubbleOk, pairDistSq, hba]

/-- Witness for C3: a candidate with negative `x` is rejected for a registered
bubble. -/
theorem canMoveTo_reject_characterization_witness :
    canMoveTo 1000 1000 demoPair "a" (-5) 0 = false :=
  (canMoveTo_reject_characterization.1 1000 1000 demoPair "a" (-5) 0
      (demoBubble "a" "ca" 0 0 100) (by simp [demoPair, List.find?, demoBubble])).mpr
    (Or.inl (Or.inl (by norm_num)))

/-! ## Contacts, raw call logs, and phone-number normalization -/

/-- One element of a contact's `phoneNumbers` array (`{ number }`, where the
`number` field may be `undefined`). -/
structure PhoneEntry where
  number : Option String
  deriving DecidableEq

/-- An `expo-contacts` contact as consumed by the embedded code: `id`, `name`
and `phoneNumbers` may each be `undefined`. -/
structure Contact where
  id : Option String
  name : Option String
  phoneNumbers : Option (List PhoneEntry)
  deriving DecidableEq

/-- A raw call-log entry `{ phoneNumber, duration, name? }`.  The `type` and
`dateTime` fields of the source records are never read by the embedded code
and are omitted.  `duration` may be absent (`log.duration || 0`). -/
structure RawCallLog where
  phoneNumber : String
  duration : Option ℚ
  name : Option String
  deriving DecidableEq

/-- Characters removed by the normalization regex `/[\s\-\(\)]/g`: ASCII
whitespace, dashes and parentheses. -/
def isFormattingChar (c : Char) : Bool :=
  c = ' ' || c = '\t' || c = '\n' || c = '\r' || c = '\x0b' || c = '\x0c' ||
    c = '-' || c = '(' || c = ')'

/-- `phoneNumber.replace(/[\s\-\(\)]/g, '')`. -/
def stripFormatting (s : String) : String :=
  ⟨s.toList.filter (fun c => !isFormattingChar c)⟩

/-- JavaScript `s.slice(-n)`: the last `n` characters (the whole string when
it is shorter than `n`). -/
def lastChars (n : Nat) (s : String) : String :=
  ⟨s.toList.drop (s.toList.length - n)⟩

/-- `normalizePhoneNumber` (identical in `Contacts.tsx` lines 204–207 and
`calllog.tsx` lines 127–132): strip formatting characters, keep the last 10
characters; empty input maps to the empty string. -/
def normalizePhoneNumber (phoneNumber : String) : String :=
  if phoneNumber = "" then ""
  else lastChars 10 (stripFormatting phoneNumber)

/-- JavaScript truthiness of a possibly-`undefined` string: `undefined` and
`""` are falsy. -/
def jsTruthy (o : Option String) : Option String :=
  match o with
  | some s => if s = "" then none else some s
  | none => none

/-- JavaScript `a || b` on possibly-`undefined` strings. -/
def jsOrOptStr (a b : Option String) : Option String :=
  match jsTruthy a with
  | some s => some s
  | none => b

/-! ## `findCallDurationForContact` (Contacts.tsx lines 209–233) -/

/-- The comparison of one normalized log number against one normalized contact
number inside the inner loop of `findCallDurationForContact`. -/
def numbersMatch (logNumber contactNumber : String) : Bool :=
  logNumber == contactNumber
    || lastChars 10 logNumber == lastChars 10 contactNumber
    || lastChars 10 contactNumber == lastChars 10 logNumber

/-- `contact.phoneNumbers.map(p => p.number).filter(Boolean).map(normalizePhoneNumber)`. -/
def contactSearchNumbers (contact : Contact) : List String :=
  (((contact.phoneNumbers.getD []).filterMap (fun p => p.number)).filter
    (fun num => num != "")).map normalizePhoneNumber

/-- The inner `for … break` loop of `findCallDurationForContact`: add `d` on
the first contact number matching `logNumber`, then stop. -/
def addMatchDuration (logNumber : String) (d : ℚ) : List String → ℚ
  | [] => 0
  | cn :: rest =>
    if numbersMatch logNumber cn then d else addMatchDuration logNumber d rest

/-- The body of the outer loop of `findCallDurationForContact`: skip logs with
a falsy `phoneNumber`, otherwise add the contribution of the inner loop. -/
def durStep (contactPhoneNumbers : List String) (totalDuration : ℚ)
    (log : RawCallLog) : ℚ :=
  if log.phoneNumber = "" then totalDuration
  else
    totalDuration +
      addMatchDuration (normalizePhoneNumber log.phoneNumber) (log.duration.getD 0)
        contactPhoneNumbers

/-- `findCallDurationForContact` from `Contacts.tsx` (lines 209–233). -/
def findCallDurationForContact (contact : Contact) (logs : List RawCallLog) : ℚ :=
  if contact.phoneNumbers.getD [] = [] then 0
  else logs.foldl (durStep (contactSearchNumbers contact)) 0

/-- A log entry matches the contact when its `phoneNumber` is truthy and its
normalized number matches at least one of the contact's normalized numbers. -/
def logMatchesContact (contactPhoneNumbers : List String) (log : RawCallLog) : Bool :=
  log.phoneNumber != "" &&
    contactPhoneNumbers.any (numbersMatch (normalizePhoneNumber log.phoneNumber))

theorem addMatchDuration_eq (ln : String) (d : ℚ) (cns : List String) :
    addMatchDuration ln d cns = if cns.any (numbersMatch ln) then d else 0 := by
  induction cns with
  | nil => simp [addMatchDuration]
  | cons c rest ih =>
    by_cases hc : numbersMatch ln c = true
    · simp [addMatchDuration, hc]
    · simp [addMatchDuration, hc, ih]

theorem foldl_durStep (cns : List String) (logs : List RawCallLog) (t : ℚ) :
    logs.foldl (durStep cns) t =
      t + ((logs.filter (logMatchesContact cns)).map (fun log => log.duration.getD 0)).sum := by
  induction logs generalizing t with
  | nil => simp
  | cons log rest ih =>
    rw [List.foldl_cons, ih]
    by_cases hp : log.phoneNumber = ""
    · simp [durStep, hp, logMatchesContact]
    · by_cases hm : cns.any (numbersMatch (normalizePhoneNumber log.phoneNumber)) = true
      · have hmatch : logMatchesContact cns log = true := by
          simp [logMatchesContact, hp, hm]
        simp only [durStep, if_neg hp, addMatchDuration_eq, if_pos hm,
          List.filter_cons, hmatch, if_pos, List.map_cons, List.sum_cons]
        ring
      · have hmatch : logMatchesContact cns log = false := by
          simp [logMatchesContact, hm]
        simp only [durStep, if_neg hp, addMatchDuration_eq, if_neg hm,
          List.filter_cons, hmatch, Bool.false_eq_true, if_false, add_zero]

/-- C10: the total duration computed by `findCallDurationForContact` counts
each log entry at most once — it equals the sum of `duration || 0` over the
entries whose normalized number matches at least one of the contact's
numbers, regardless of how many of the contact's numbers match. -/
theorem findCallDuration_counts_each_entry_once (contact : Contact)
    (logs : List RawCallLog) :
    findCallDurationForContact contact logs =
      ((logs.filter (logMatchesContact (contactSearchNumbers contact))).map
        (fun log => log.duration.getD 0)).sum := by
  unfold findCallDurationForContact
  by_cases hg : contact.phoneNumbers.getD [] = []
  · have hcs : contactSearchNumbers contact = [] := by
      simp [contactSearchNumbers, hg]
    rw [if_pos hg, hcs]
    have hfil : logs.filter (logMatchesContact []) = [] := by
      simp [List.filter_eq_nil_iff, logMatchesContact]
    rw [hfil]
    simp
  · rw [if_neg hg, foldl_durStep]
    ring

/-! ## `updateBubbleDurations` (Contacts.tsx lines 235–257) -/

/-- `contact.phoneNumbers && contact.phoneNumbers.length > 0 ?
contact.phoneNumbers[0].number : undefined`. -/
def firstPhoneNumber (contact : Contact) : Option String :=
  match contact.phoneNumbers with
  | some (p :: _) => p.number
  | _ => none

/-- `updateBubbleDurations` from `Contacts.tsx` (lines 235–257): recompute
duration, size and (possibly) phone number of every bubble whose contact is
found; the canvas width feeds `getBubbleSize`. -/
def updateBubbleDurations (w : ℚ) (allContacts : List Contact)
    (logs : List RawCallLog) (bubbles : List BubbleState) : List BubbleState :=
  bubbles.map (fun bubble =>
    match allContacts.find? (fun c => c.id == some bubble.contactId) with
    | some contact =>
      let duration := findCallDurationForContact contact logs
      let newSize := getBubbleSize w duration
      let phoneNumber := jsOrOptStr bubble.phoneNumber (firstPhoneNumber contact)
      { bubble with callDuration := duration, size := newSize,
                    phoneNumber := phoneNumber }
    | none => bubble)

/-- C9: a duration refresh never touches `id`, `contactId`, `contactName`,
`x` or `y` of any bubble — only `callDuration`, `size` and `phoneNumber` may
change, and positions are never collision-checked or adjusted. -/
theorem updateBubbleDurations_frame (w : ℚ) (allContacts : List Contact)
    (logs : List RawCallLog) (bubbles : List BubbleState) :
    (updateBubbleDurations w allContacts logs bubbles).map
        (fun b => (b.id, b.contactId, b.contactName, b.x, b.y)) =
      bubbles.map (fun b => (b.id, b.contactId, b.contactName, b.x, b.y)) := by
  unfold updateBubbleDurations
  rw [List.map_map]
  refine List.map_congr_left ?_
  intro b _
  simp only [Function.comp]
  cases allContacts.find? (fun c => c.id == some b.contactId) <;> rfl

/-! ## LayoutStore lifecycle: add, cap check, remove -/

/-- The component state touched by the add/remove lifecycle: the bubble list,
the selected-contact-id set (a JavaScript `Set`, modelled as an
insertion-ordered duplicate-free list), and the two modal flags involved in
the add flow. -/
structure ContactsState where
  bubbles : List BubbleState
  selectedContactIds : List String
  showModal : Bool
  maxLimitModalVisible : Bool
  deriving DecidableEq

/-- JavaScript `new Set(prev).add(x)`: insertion-ordered, no duplicates. -/
def jsSetAdd (l : List String) (x : String) : List String :=
  if x ∈ l then l else l ++ [x]

/-- JavaScript `a || b` where `a` may be `undefined` and `b` is a string. -/
def jsOrStr (a : Option String) (b : String) : String :=
  match jsTruthy a with
  | some s => s
  | none => b

/-- `generateRandomPosition` from `Contacts.tsx` (lines 259–266), with the two
`Math.random()` samples passed in as parameters `randX, randY ∈ [0, 1)`. -/
def generateRandomPosition (w hgt randX randY size : ℚ) : ℚ × ℚ :=
  (randX * (w - size), randY * (hgt - size))

/-- `handleAddContactPress` from `Contacts.tsx` (lines 290–297): with 7 or
more bubbles it only surfaces the limit modal; otherwise it opens the contact
picker.  It never modifies the bubble list. -/
def handleAddContactPress (s : ContactsState) : ContactsState :=
  if 7 ≤ s.bubbles.length then { s with maxLimitModalVisible := true }
  else { s with showModal := true }

/-- `addContactToBubbles` from `Contacts.tsx` (lines 303–336): build the new
bubble (size from the aggregated duration, random position, fresh id from the
current timestamp `now`) and append it; mark the contact selected.  Note
the source performs no cap check here. -/
def addContactToBubbles (w hgt : ℚ) (callLogs : List RawCallLog) (contact : Contact)
    (randX randY : ℚ) (now : Nat) (s : ContactsState) : ContactsState :=
  let duration := if 0 < callLogs.length
    then findCallDurationForContact contact callLogs else 0
  let size := getBubbleSize w duration
  let position := generateRandomPosition w hgt randX randY size
  let contactId := jsOrStr contact.id ("contact-" ++ toString now)
  let bubbleId := "bubble-" ++ contactId ++ "-" ++ toString now
  let phoneNumber := firstPhoneNumber contact
  let newBubble : BubbleState :=
    { id := bubbleId, size := size, x := position.1, y := position.2,
      contactId := contactId, contactName := jsOrStr contact.name "Unknown",
      callDuration := duration, phoneNumber := phoneNumber }
  { s with bubbles := s.bubbles ++ [newBubble],
           selectedContactIds := jsSetAdd s.selectedContactIds contactId }

/-- `removeBubble` from `Contacts.tsx` (lines 338–350): drop every bubble with
the contact id from the list and delete the id from the selection set (the
`Set` holds distinct elements, so deletion is filtering). -/
def removeBubble (contactId : String) (s : ContactsState) : ContactsState :=
  { s with
    bubbles := s.bubbles.filter (fun b => b.contactId != contactId),
    selectedContactIds := s.selectedContactIds.filter (fun c => c != contactId) }

/-- `syncMap` from `Contacts.tsx` (lines 43–47): the id-keyed index rebuilt
from the bubble list. -/
def syncMap (bubbles : List BubbleState) : List (String × BubbleState) :=
  bubbles.map (fun b => (b.id, b))

/-- A state holding seven bubbles with the contact picker already open (which
the source permits whenever the picker was opened with at most six). -/
def sevenState : ContactsState :=
  { bubbles :=
      [demoBubble "b1" "c1" 0 0 60, demoBubble "b2" "c2" 100 0 60,
       demoBubble "b3" "c3" 200 0 60, demoBubble "b4" "c4" 300 0 60,
       demoBubble "b5" "c5" 0 100 60, demoBubble "b6" "c6" 100 100 60,
       demoBubble "b7" "c7" 200 100 60],
    selectedContactIds := ["c1", "c2", "c3", "c4", "c5", "c6", "c7"],
    showModal := true,
    maxLimitModalVisible := false }

/-- An eighth contact not yet selected. -/
def extraContact : Contact :=
  { id := some "c8", name := some "Hank", phoneNumbers := some [] }

/-- C4 (code bug): the 7-bubble cap is only checked by
`handleAddContactPress` before opening the picker; `addContactToBubbles`
itself appends unconditionally, so selecting a contact while the picker is
open in a 7-bubble state yields an 8th bubble instead of the claimed no-op. -/
theorem addContact_ignores_seven_cap :
    sevenState.bubbles.length = 7 ∧
    (addContactToBubbles 400 800 [] extraContact 0 0 0 sevenState).bubbles.length = 8 ∧
    handleAddContactPress sevenState = { sevenState with maxLimitModalVisible := true } := by
  refine ⟨rfl, ?_, ?_⟩
  · simp [addContactToBubbles, sevenState]
  · rfl

/-- A state whose selection set contains a contact id with no bubble. -/
def selOnlyState : ContactsState :=
  { bubbles := [], selectedContactIds := ["c1"], showModal := false,
    maxLimitModalVisible := false }

/-- Counterexample to C8 as stated: in a state with no bubble for `"c1"` but
`"c1"` still in the selection set, `removeBubble "c1"` is not a no-op — it
deletes the id from the selection set. -/
theorem removeBubble_absent_changes_selection :
    (∀ b ∈ selOnlyState.bubbles, b.contactId ≠ "c1") ∧
    removeBubble "c1" selOnlyState ≠ selOnlyState := by
  constructor
  · intro b hb
    exact absurd hb (List.not_mem_nil b)
  · intro hEq
    have h := congrArg ContactsState.selectedContactIds hEq
    simp [removeBubble, selOnlyState] at h

/-- C8 (amended): `removeBubble` is idempotent — removing the same contact id
twice equals removing it once, for every state; and when no bubble carries the
contact id and the id is not in the selection set (which add/remove keep in
sync with the bubble list), removing it leaves the bubble list, the id index,
and the selection set unchanged. -/
theorem removeBubble_idempotent (s : ContactsState) (cid : String) :
    removeBubble cid (removeBubble cid s) = removeBubble cid s ∧
    ((∀ b ∈ s.bubbles, b.contactId ≠ cid) → cid ∉ s.selectedContactIds →
      removeBubble cid s = s ∧
      syncMap (removeBubble cid s).bubbles = syncMap s.bubbles) := by
  constructor
  · simp [removeBubble, List.filter_filter]
  · intro hb hsel
    have h1 : s.bubbles.filter (fun b => b.contactId != cid) = s.bubbles := by
      refine List.filter_eq_self.mpr ?_
      intro b hbm
      simpa using hb b hbm
    have h2 : s.selectedContactIds.filter (fun c => c != cid) = s.selectedContactIds := by
      refine List.filter_eq_self.mpr ?_
      intro c hc
      simp only [bne_iff_ne, ne_eq, decide_eq_true_eq]
      intro h
      exact hsel (h ▸ hc)
    have hst : removeBubble cid s = s := by
      cases s
      simp_all [removeBubble]
    exact ⟨hst, by rw [hst]⟩

/-- A state with one bubble for contact `"ca"`. -/
def demoState : ContactsState :=
  { bubbles := [demoBubble "a" "ca" 0 0 100], selectedContactIds := ["ca"],
    showModal := false, maxLimitModalVisible := false }

/-- Witness for C8 (amended) at a concrete state and an absent contact id. -/
theorem removeBubble_idempotent_witness :
    removeBubble "nope" (removeBubble "nope" demoState) = removeBubble "nope" demoState ∧
    removeBubble "nope" demoState = demoState :=
  ⟨(removeBubble_idempotent demoState "nope").1,
   ((removeBubble_idempotent demoState "nope").2
      (by
        intro b hb
        simp only [demoState, List.mem_singleton] at hb
        subst hb
        decide)
      (by decide)).1⟩

/-! ## CallAggregator: the grouping loop of `loadCallLogs` (calllog.tsx) -/

/-- One value of the `groupedMap` in `loadCallLogs`
(`{ phoneNumber, name, callCount, totalDuration }`). -/
structure AggregatedRecord where
  phoneNumber : String
  name : Option String
  callCount : ℕ
  totalDuration : ℚ
  deriving DecidableEq

/-- Comparison of one contact phone entry against a normalized log number
inside `findContactName` (`calllog.tsx` lines 108–123): entries with a falsy
`number` are skipped; otherwise exact or last-10 suffix match. -/
def contactEntryMatches (normalizedNumber : String) (p : PhoneEntry) : Bool :=
  match p.number with
  | none => false
  | some num =>
    if num = "" then false
    else
      stripFormatting num == normalizedNumber
        || lastChars 10 (stripFormatting num) == lastChars 10 normalizedNumber
        || lastChars 10 normalizedNumber == lastChars 10 (stripFormatting num)

/-- `findContactName` from `calllog.tsx` (lines 102–125): the name of the
first contact having a matching phone number (`contact.name || null`),
else `null`. -/
def findContactName (phoneNumber : String) (contactList : List Contact) : Option String :=
  if phoneNumber = "" then none
  else
    match contactList.find? (fun contact =>
        (contact.phoneNumbers.getD []).any
          (contactEntryMatches (stripFormatting phoneNumber))) with
    | some contact => jsTruthy contact.name
    | none => none

/-- `groupedMap.get(key)` on the insertion-ordered association list modelling
the JavaScript `Map`. -/
def lookupKey (k : String) : List (String × AggregatedRecord) → Option AggregatedRecord
  | [] => none
  | (k2, v) :: rest => if k2 = k then some v else lookupKey k rest

/-- In-place mutation of the entry at key `k` of the `Map` (position and
other entries preserved, as JavaScript `Map` mutation does). -/
def modifyAssoc (k : String) (f : AggregatedRecord → AggregatedRecord) :
    List (String × AggregatedRecord) → List (String × AggregatedRecord)
  | [] => []
  | (k2, v) :: rest =>
    if k2 = k then (k2, f v) :: rest else (k2, v) :: modifyAssoc k f rest

/-- `findContactName(log.phoneNumber, contactList) || log.name || null`. -/
def aggName (contactList : List Contact) (log : RawCallLog) : Option String :=
  jsOrOptStr (findContactName log.phoneNumber contactList) (jsTruthy log.name)

/-- The mutation applied to an existing group (`calllog.tsx` lines 163–174):
increment `callCount`, add `duration || 0`, keep the strictly longer raw
phone-number format, and fill in a name only if none was stored. -/
def aggUpdate (contactList : List Contact) (log : RawCallLog)
    (existing : AggregatedRecord) : AggregatedRecord :=
  { phoneNumber :=
      if existing.phoneNumber = "" ∨
          (log.phoneNumber ≠ "" ∧
            existing.phoneNumber.length < log.phoneNumber.length)
      then log.phoneNumber else existing.phoneNumber,
    name :=
      if jsTruthy existing.name = none ∧ jsTruthy (aggName contactList log) ≠ none
      then aggName contactList log else existing.name,
    callCount := existing.callCount + 1,
    totalDuration := existing.totalDuration + log.duration.getD 0 }

/-- The group created for a fresh key (`calllog.tsx` lines 175–182). -/
def aggInit (contactList : List Contact) (log : RawCallLog) : AggregatedRecord :=
  { phoneNumber := log.phoneNumber,
    name := aggName contactList log,
    callCount := 1,
    totalDuration := log.duration.getD 0 }

/-- One iteration of the `logs.forEach` grouping loop of `loadCallLogs`
(`calllog.tsx` lines 151–183): skip entries with a falsy `phoneNumber` or an
empty normalized key; update an existing group or append a new one. -/
def aggStep (contactList : List Contact) (m : List (String × AggregatedRecord))
    (log : RawCallLog) : List (String × AggregatedRecord) :=
  if log.phoneNumber = "" then m
  else if normalizePhoneNumber log.phoneNumber = "" then m
  else
    match lookupKey (normalizePhoneNumber log.phoneNumber) m with
    | some _ =>
      modifyAssoc (normalizePhoneNumber log.phoneNumber) (aggUpdate contactList log) m
    | none => m ++ [(normalizePhoneNumber log.phoneNumber, aggInit contactList log)]

/-- The full `groupedMap` after processing `logs`. -/
def groupLogs (contactList : List Contact) (logs : List RawCallLog) :
    List (String × AggregatedRecord) :=
  logs.foldl (aggStep contactList) []

/-- `Array.from(groupedMap.values()).sort((a, b) => b.totalDuration -
a.totalDuration)`: the groups sorted stably by total duration descending. -/
def aggregateCallLogs (contactList : List Contact) (logs : List RawCallLog) :
    List AggregatedRecord :=
  ((groupLogs contactList logs).map Prod.snd).mergeSort
    (fun a b => decide (b.totalDuration ≤ a.totalDuration))

/-- The log entries grouped under key `k`. -/
def keyEntries (k : String) (logs : List RawCallLog) : List RawCallLog :=
  logs.filter (fun log => normalizePhoneNumber log.phoneNumber == k)

/-- The count/total projection of a group. -/
def aggProj (r : AggregatedRecord) : ℕ × ℚ := (r.callCount, r.totalDuration)

/-- Expected count/total of a group after absorbing the listed hits. -/
def combineHits (o : Option (ℕ × ℚ)) (hits : List RawCallLog) : Option (ℕ × ℚ) :=
  match o with
  | some ct => some (ct.1 + hits.length, ct.2 + (hits.map (fun l => l.duration.getD 0)).sum)
  | none =>
    if hits.isEmpty then none
    else some (hits.length, (hits.map (fun l => l.duration.getD 0)).sum)

theorem combineHits_nil (o : Option (ℕ × ℚ)) : combineHits o [] = o := by
  cases o <;> simp [combineHits]

theorem lookupKey_modifyAssoc_self (k : String) (f : AggregatedRecord → AggregatedRecord)
    (m : List (String × AggregatedRecord)) :
    lookupKey k (modifyAssoc k f m) = (lookupKey k m).map f := by
  induction m with
  | nil => rfl
  | cons kv rest ih =>
    obtain ⟨k2, v⟩ := kv
    show lookupKey k (if k2 = k then (k2, f v) :: rest
        else (k2, v) :: modifyAssoc k f rest) =
      Option.map f (if k2 = k then some v else lookupKey k rest)
    by_cases h : k2 = k
    · rw [if_pos h, if_pos h]
      show (if k2 = k then some (f v) else lookupKey k rest) = some (f v)
      rw [if_pos h]
    · rw [if_neg h, if_neg h]
      show (if k2 = k then some v else lookupKey k (modifyAssoc k f rest)) = _
      rw [if_neg h, ih]

theorem lookupKey_modifyAssoc_ne (k k2 : String) (hne : k ≠ k2)
    (f : AggregatedRecord → AggregatedRecord) (m : List (String × AggregatedRecord)) :
    lookupKey k (modifyAssoc k2 f m) = lookupKey k m := by
  induction m with
  | nil => rfl
  | cons kv rest ih =>
    obtain ⟨k3, v⟩ := kv
    show lookupKey k (if k3 = k2 then (k3, f v) :: rest
        else (k3, v) :: modifyAssoc k2 f rest) =
      (if k3 = k then some v else lookupKey k rest)
    by_cases h : k3 = k2
    · rw [if_pos h]
      have h2 : ¬ k3 = k := by
        rw [h]
        exact fun hx => hne hx.symm
      show (if k3 = k then some (f v) else lookupKey k rest) = _
      rw [if_neg h2, if_neg h2]
    · rw [if_neg h]
      show (if k3 = k then some v else lookupKey k (modifyAssoc k2 f rest)) = _
      rw [ih]

theorem lookupKey_append_of_none (k : String) (m l : List (String × AggregatedRecord))
    (h : lookupKey k m = none) : lookupKey k (m ++ l) = lookupKey k l := by
  induction m with
  | nil => rw [List.nil_append]
  | cons kv rest ih =>
    obtain ⟨k2, v⟩ := kv
    by_cases h2 : k2 = k
    · rw [show lookupKey k ((k2, v) :: rest) = some v from if_pos h2] at h
      exact absurd h (by simp)
    · rw [show lookupKey k ((k2, v) :: rest) = lookupKey k rest from if_neg h2] at h
      rw [List.cons_append]
      rw [show lookupKey k ((k2, v) :: (rest ++ l)) = lookupKey k (rest ++ l) from
        if_neg h2]
      exact ih h

theorem lookupKey_append_single_ne (k k2 : String) (hne : k ≠ k2)
    (v : AggregatedRecord) (m : List (String × AggregatedRecord)) :
    lookupKey k (m ++ [(k2, v)]) = lookupKey k m := by
  have hne2 : ¬ k2 = k := fun h => hne h.symm
  induction m with
  | nil =>
    rw [List.nil_append]
    exact if_neg hne2
  | cons kv rest ih =>
    obtain ⟨k3, w⟩ := kv
    rw [List.cons_append]
    show (if k3 = k then some w else lookupKey k (rest ++ [(k2, v)])) =
      (if k3 = k then some w else lookupKey k rest)
    rw [ih]

theorem keys_modifyAssoc (k : String) (f : AggregatedRecord → AggregatedRecord)
    (m : List (String × AggregatedRecord)) :
    (modifyAssoc k f m).map Prod.fst = m.map Prod.fst := by
  induction m with
  | nil => rfl
  | cons kv rest ih =>
    obtain ⟨k2, v⟩ := kv
    show (if k2 = k then (k2, f v) :: rest else (k2, v) :: modifyAssoc k f rest).map
        Prod.fst = k2 :: rest.map Prod.fst
    by_cases h : k2 = k
    · rw [if_pos h]
      rfl
    · rw [if_neg h, List.map_cons, ih]

theorem lookupKey_eq_none_iff (k : String) (m : List (String × AggregatedRecord)) :
    lookupKey k m = none ↔ k ∉ m.map Prod.fst := by
  induction m with
  | nil => simp [lookupKey]
  | cons kv rest ih =>
    obtain ⟨k2, v⟩ := kv
    by_cases h : k2 = k
    · simp [lookupKey, h]
    · have h2 : ¬ k = k2 := fun hx => h hx.symm
      simp [lookupKey, h, ih, h2]

theorem keys_aggStep_nodup (contactList : List Contact) (log : RawCallLog)
    (m : List (String × AggregatedRecord)) (hm : (m.map Prod.fst).Nodup) :
    ((aggStep contactList m log).map Prod.fst).Nodup := by
  unfold aggStep
  split_ifs with h1 h2
  · exact hm
  · exact hm
  · cases hlk : lookupKey (normalizePhoneNumber log.phoneNumber) m with
    | some r => simpa [keys_modifyAssoc] using hm
    | none =>
      have hnot : normalizePhoneNumber log.phoneNumber ∉ m.map Prod.fst :=
        (lookupKey_eq_none_iff _ m).mp hlk
      simp only [List.map_append, List.map_cons, List.map_nil]
      rw [List.nodup_append]
      refine ⟨hm, List.nodup_singleton _, ?_⟩
      intro a ha hb
      simp only [List.mem_singleton] at hb
      exact hnot (hb ▸ ha)

theorem keys_groupAux_nodup (contactList : List Contact) :
    ∀ (logs : List RawCallLog) (m : List (String × AggregatedRecord)),
      (m.map Prod.fst).Nodup →
      ((logs.foldl (aggStep contactList) m).map Prod.fst).Nodup := by
  intro logs
  induction logs with
  | nil => intro m hm; simpa using hm
  | cons log rest ih =>
    intro m hm
    rw [List.foldl_cons]
    exact ih _ (keys_aggStep_nodup contactList log m hm)

theorem lookupKey_foldl_aggStep (contactList : List Contact) (k : String) (hk : k ≠ "") :
    ∀ (logs : List RawCallLog) (m : List (String × AggregatedRecord)),
      (lookupKey k (logs.foldl (aggStep contactList) m)).map aggProj =
        combineHits ((lookupKey k m).map aggProj) (keyEntries k logs) := by
  intro logs
  induction logs with
  | nil =>
    intro m
    simp [keyEntries, combineHits_nil]
  | cons log rest ih =>
    intro m
    rw [List.foldl_cons, ih]
    by_cases hp : log.phoneNumber = ""
    · have hs : aggStep contactList m log = m := by simp [aggStep, hp]
      have hkey : (normalizePhoneNumber log.phoneNumber == k) = false := by
        simp only [normalizePhoneNumber, if_pos hp]
        exact beq_eq_false_iff_ne.mpr (Ne.symm hk)
      rw [hs]
      congr 1
      simp [keyEntries, List.filter_cons, hkey]
    · by_cases hke : normalizePhoneNumber log.phoneNumber = ""
      · have hs : aggStep contactList m log = m := by simp [aggStep, hp, hke]
        have hkey : (normalizePhoneNumber log.phoneNumber == k) = false := by
          rw [hke]
          exact beq_eq_false_iff_ne.mpr (Ne.symm hk)
        rw [hs]
        congr 1
        simp [keyEntries, List.filter_cons, hkey]
      · by_cases hks : normalizePhoneNumber log.phoneNumber = k
        · have hkeyc : keyEntries k (log :: rest) = log :: keyEntries k rest := by
            simp [keyEntries, List.filter_cons, hks]
          rw [hkeyc]
          cases hlk : lookupKey k m with
          | some r =>
            have hs : aggStep contactList m log =
                modifyAssoc k (aggUpdate contactList log) m := by
              unfold aggStep
              rw [if_neg hp, if_neg hke, hks, hlk]
            rw [hs, lookupKey_modifyAssoc_self, hlk]
            show combineHits (some (aggProj (aggUpdate contactList log r)))
                (keyEntries k rest) =
              combineHits (some (aggProj r)) (log :: keyEntries k rest)
            simp only [combineHits, aggProj, aggUpdate, List.length_cons,
              List.map_cons, List.sum_cons, Option.some.injEq, Prod.mk.injEq]
            constructor
            · omega
            · ring
          | none =>
            have hs : aggStep contactList m log =
                m ++ [(k, aggInit contactList log)] := by
              unfold aggStep
              rw [if_neg hp, if_neg hke, hks, hlk]
            rw [hs]
            have hsk : lookupKey k (m ++ [(k, aggInit contactList log)]) =
                some (aggInit contactList log) := by
              rw [lookupKey_append_of_none k m _ hlk]
              simp [lookupKey]
            rw [hsk]
            show combineHits (some (aggProj (aggInit contactList log)))
                (keyEntries k rest) =
              combineHits none (log :: keyEntries k rest)
            simp only [combineHits, aggProj, aggInit, List.length_cons,
              List.map_cons, List.sum_cons, List.isEmpty_cons, Bool.false_eq_true,
              if_false, Option.some.injEq, Prod.mk.injEq]
            constructor
            · omega
            · ring
        · have hkey : (normalizePhoneNumber log.phoneNumber == k) = false :=
            beq_eq_false_iff_ne.mpr hks
          have hkeyc : keyEntries k (log :: rest) = keyEntries k rest := by
            simp [keyEntries, List.filter_cons, hkey]
          rw [hkeyc]
          congr 2
          cases hlk : lookupKey (normalizePhoneNumber log.phoneNumber) m with
          | some r =>
            have hs : aggStep contactList m log =
                modifyAssoc (normalizePhoneNumber log.phoneNumber)
                  (aggUpdate contactList log) m := by
              unfold aggStep
              rw [if_neg hp, if_neg hke, hlk]
            rw [hs, lookupKey_modifyAssoc_ne k _ (fun h => hks h.symm)]
          | none =>
            have hs : aggStep contactList m log =
                m ++ [(normalizePhoneNumber log.phoneNumber, aggInit contactList log)] := by
              unfold aggStep
              rw [if_neg hp, if_neg hke, hlk]
            rw [hs, lookupKey_append_single_ne k _ (fun h => hks h.symm)]

/-- The two-entry raw log of the aggregation scenario. -/
def scenarioLogs : List RawCallLog :=
  [{ phoneNumber := "(555) 123-4567", duration := some 30, name := none },
   { phoneNumber := "555-123-4567", duration := some 45, name := none }]

/-- C7: grouping is by the normalized key (strip formatting, last 10
characters): the grouped map has pairwise distinct keys, and for every
nonempty key its group holds exactly the number of entries normalizing to it
as `callCount` and the sum of their `duration || 0` as `totalDuration`; the
scenario log aggregates to a single record with `callCount = 2` and total
duration `75`. -/
theorem aggregation_groups_by_normalized_key :
    (∀ (contactList : List Contact) (logs : List RawCallLog) (k : String), k ≠ "" →
      ((groupLogs contactList logs).map Prod.fst).Nodup ∧
      (lookupKey k (groupLogs contactList logs)).map aggProj =
        (if (keyEntries k logs).isEmpty then none
         else some ((keyEntries k logs).length,
           ((keyEntries k logs).map (fun log => log.duration.getD 0)).sum))) ∧
    (aggregateCallLogs [] scenarioLogs).map aggProj = [(2, 75)] := by
  constructor
  · intro contactList logs k hk
    constructor
    · exact keys_groupAux_nodup contactList logs [] (by simp)
    · have h := lookupKey_foldl_aggStep contactList k hk logs []
      simpa [groupLogs, combineHits, lookupKey] using h
  · have hg : groupLogs [] scenarioLogs =
        [("5551234567",
          { phoneNumber := "(555) 123-4567", name := none, callCount := 2,
            totalDuration := 30 + 45 })] := rfl
    unfold aggregateCallLogs
    rw [hg]
    simp only [List.map_cons, List.map_nil]
    simp [List.mergeSort, aggProj]
    norm_num

/-- Witness for C7: the scenario's grouped map at key `"5551234567"` holds
count 2 and total 75. -/
theorem aggregation_groups_by_normalized_key_witness :
    (lookupKey "5551234567" (groupLogs [] scenarioLogs)).map aggProj = some (2, 75) := by
  have h := (aggregation_groups_by_normalized_key.1 [] scenarioLogs "5551234567"
    (by decide)).2
  rw [h]
  have he : keyEntries "5551234567" scenarioLogs = scenarioLogs := rfl
  rw [he]
  norm_num [scenarioLogs]

end ContactApp
